import Mathlib

/-!
Verification of the Face-Recognition-with-ID student verification system.

A shallow embedding of the core logic of the repository:

* `useIDScannerLogic.js` — OCR-text-to-ID reconciliation (`findValidStudentId`)
  and the ID acquisition loop (`scanFrame`).
* `useFaceVerification.js` — descriptor comparators (`cosineSimilarity`,
  `faceSimilarity`), the face quality gate (`checkFaceQuality`) and the
  periodic face-detection tick (`startFaceDetection`).
* `useVerificationFlow.js` — the verification flow controller state machine.
* `studentDatabase.js` (`testDB`) — the student registry.

Raw text and identifiers are modelled as `List Char`; JS numbers are modelled
as real numbers.
-/

set_option maxHeartbeats 1000000

namespace FaceID

/-! ## Text reconciliation (`useIDScannerLogic.js`, `findValidStudentId`)

JS strings are modelled as `List Char`.  `startsWithL` and `includesL` model
`String.prototype.startsWith` and `String.prototype.includes` (contiguous
substring containment). -/

/-- Model of `startsWithL d v` : the string `v` occurs at the start of `d`. -/
def startsWithL : List Char → List Char → Bool
  | _, [] => true
  | [], _ :: _ => false
  | c :: cs, x :: xs => c == x && startsWithL cs xs

/-- Model of `includesL d v` : `v` occurs as a contiguous substring of `d`
(JS `d.includes(v)`). -/
def includesL : List Char → List Char → Bool
  | [], v => v.isEmpty
  | c :: rest, v => startsWithL (c :: rest) v || includesL rest v

/-- Model of `text.replace(/\D/g, '')` : keep only the digit characters. -/
def digitsOnly (text : List Char) : List Char :=
  text.filter (fun c => c.isDigit)

/-- The sliding-window loop of `findValidStudentId`:
`for (let i = 0; i <= digitsOnly.length - 7; i++)` over the 7-character
substrings `digitsOnly.substring(i, i + 7)`, returning the first one that is a
member of `validIds`. -/
def windowScan (validIds : List (List Char)) : List Char → Option (List Char)
  | [] => none
  | c :: rest =>
    if (c :: rest).length < 7 then none
    else if validIds.contains ((c :: rest).take 7) then some ((c :: rest).take 7)
    else windowScan validIds rest

/-- Model of `findValidStudentId` from `useIDScannerLogic.js` (lines 90–128):
strip the raw OCR text to its digits, then
1. return the first `validId` (iteration order) with `digitsOnly.includes(validId)`;
2. otherwise, if at least 7 digits, scan every 7-digit window left-to-right and
   return the first window that is in `validIds`;
3. otherwise test the first 7 digits against `validIds`;
4. otherwise return `none`. -/
def findValidStudentId (validIds : List (List Char)) (text : List Char) :
    Option (List Char) :=
  let d := digitsOnly text
  match validIds.find? (fun validId => includesL d validId) with
  | some validId => some validId
  | none =>
    if 7 ≤ d.length then
      match windowScan validIds d with
      | some candidate => some candidate
      | none =>
        let firstSeven := d.take 7
        if validIds.contains firstSeven then some firstSeven else none
    else none

/-- The reconciliation procedure as the specification words it: strip to the
digit characters `D`; return the first identifier of `V` (iteration order) that
occurs as a contiguous substring of `D`; failing that, when `D` has length ≥ 7,
the first contiguous 7-digit substring of `D`, scanning left-to-right (index
`i = 0, 1, …`), that is a member of `V`; failing that, the first 7 characters
of `D` if they are a member of `V`; otherwise no identifier. -/
def reconcileSpec (validIds : List (List Char)) (text : List Char) :
    Option (List Char) :=
  let d := digitsOnly text
  match validIds.find? (fun validId => includesL d validId) with
  | some validId => some validId
  | none =>
    if 7 ≤ d.length then
      match ((List.range (d.length - 6)).map
          (fun i => (d.drop i).take 7)).find? (fun c => validIds.contains c) with
      | some candidate => some candidate
      | none =>
        if validIds.contains (d.take 7) then some (d.take 7) else none
    else none

/-! ### Basic lemmas about substring containment -/

theorem startsWithL_take (d : List Char) (n : Nat) :
    startsWithL d (d.take n) = true := by
  induction d generalizing n with
  | nil => simp [startsWithL]
  | cons c cs ih =>
    cases n with
    | zero => simp [startsWithL]
    | succ m => simp [startsWithL, ih]

theorem includesL_of_startsWithL {d v : List Char}
    (h : startsWithL d v = true) : includesL d v = true := by
  cases d with
  | nil =>
    cases v with
    | nil => simp [includesL]
    | cons x xs => simp [startsWithL] at h
  | cons c cs => simp [includesL, h]

theorem includesL_cons {c : Char} {rest v : List Char}
    (h : includesL rest v = true) : includesL (c :: rest) v = true := by
  simp [includesL, h]

theorem includesL_drop {v : List Char} :
    ∀ (d : List Char) (i : Nat), includesL (d.drop i) v = true →
      includesL d v = true := by
  intro d
  induction d with
  | nil => intro i h; simpa using h
  | cons c cs ih =>
    intro i h
    cases i with
    | zero => simpa using h
    | succ j => exact includesL_cons (ih j h)

theorem includesL_drop_take (d : List Char) (i n : Nat) :
    includesL d ((d.drop i).take n) = true :=
  includesL_drop d i (includesL_of_startsWithL (startsWithL_take (d.drop i) n))

/-- Anything `windowScan` returns is a member of `validIds` and a contiguous
substring of the scanned digit string. -/
theorem windowScan_some {validIds : List (List Char)} :
    ∀ {d c : List Char}, windowScan validIds d = some c →
      c ∈ validIds ∧ includesL d c = true := by
  intro d
  induction d with
  | nil => intro c h; simp [windowScan] at h
  | cons x rest ih =>
    intro c h
    rw [windowScan] at h
    split at h
    · exact absurd h (by simp)
    · split at h
      · rename_i hmem
        obtain rfl : (x :: rest).take 7 = c := by simpa using h
        refine ⟨?_, ?_⟩
        · simpa using hmem
        · have := startsWithL_take (x :: rest) 7
          exact includesL_of_startsWithL this
      · obtain ⟨h1, h2⟩ := ih h
        exact ⟨h1, includesL_cons h2⟩

/-- The sliding-window loop returns exactly the first 7-character window, in
left-to-right order of the start index, that is a member of `validIds`. -/
theorem windowScan_eq_spec (validIds : List (List Char)) :
    ∀ d : List Char,
      windowScan validIds d =
        ((List.range (d.length - 6)).map (fun i => (d.drop i).take 7)).find?
          (fun c => validIds.contains c) := by
  intro d
  induction d with
  | nil => simp [windowScan]
  | cons x rest ih =>
    by_cases h7 : (x :: rest).length < 7
    · have h0 : (x :: rest).length - 6 = 0 := by omega
      rw [windowScan, if_pos h7, h0]
      simp
    · have hlen : 6 ≤ rest.length := by
        simp only [List.length_cons] at h7; omega
      have hsub : (x :: rest).length - 6 = (rest.length - 6) + 1 := by
        simp only [List.length_cons]; omega
      rw [windowScan, if_neg h7, hsub, List.range_succ_eq_map]
      by_cases hc : validIds.contains ((x :: rest).take 7) = true
      · rw [if_pos hc, List.map_cons, List.drop_zero,
          List.find?_cons_of_pos _ hc]
      · rw [if_neg hc]
        simp only [List.map_cons, List.drop_zero, List.map_map]
        rw [List.find?_cons_of_neg _ (by simpa using hc), ih]
        congr 1

/-- Claim C1: `findValidStudentId` strips the text to its digit characters `D`
and then returns the first identifier of the valid set (iteration order) that
occurs as a contiguous substring of `D`; failing that, for `D` of length ≥ 7,
the first contiguous 7-digit substring of `D` scanning left-to-right that is a
member of the valid set; failing that, the first 7 characters of `D` only if
they are a member of the valid set; otherwise no identifier. -/
theorem findValidStudentId_eq_reconcileSpec (validIds : List (List Char))
    (text : List Char) :
    findValidStudentId validIds text = reconcileSpec validIds text := by
  simp only [findValidStudentId, reconcileSpec, windowScan_eq_spec]

/-- Claim C10: when every identifier in the valid set has length exactly 7, the
three-stage procedure is plain substring search: it returns the first member
of the valid set (iteration order) that occurs as a contiguous substring of
the digits-only projection, and it returns a result iff such a member
exists. -/
theorem findValidStudentId_eq_plain_search (validIds : List (List Char))
    (text : List Char) (hlen : ∀ v ∈ validIds, v.length = 7) :
    findValidStudentId validIds text =
      validIds.find? (fun v => includesL (digitsOnly text) v) ∧
    ((findValidStudentId validIds text).isSome = true ↔
      ∃ v ∈ validIds, includesL (digitsOnly text) v = true) := by
  have hmain : findValidStudentId validIds text =
      validIds.find? (fun v => includesL (digitsOnly text) v) := by
    cases hfind : validIds.find? (fun v => includesL (digitsOnly text) v) with
    | some v => simp [findValidStudentId, hfind]
    | none =>
      have hall : ∀ v ∈ validIds, ¬ includesL (digitsOnly text) v = true := by
        simpa using List.find?_eq_none.mp hfind
      simp only [findValidStudentId, hfind]
      split
      · cases hw : windowScan validIds (digitsOnly text) with
        | some c =>
          obtain ⟨hc1, hc2⟩ := windowScan_some hw
          exact absurd hc2 (hall c hc1)
        | none =>
          simp only [hw]
          by_cases hp : validIds.contains ((digitsOnly text).take 7) = true
          · have hmem : (digitsOnly text).take 7 ∈ validIds := by simpa using hp
            have hinc : includesL (digitsOnly text)
                ((digitsOnly text).take 7) = true := by
              simpa using includesL_drop_take (digitsOnly text) 0 7
            exact absurd hinc (hall _ hmem)
          · rw [if_neg hp]
      · rfl
  refine ⟨hmain, ?_⟩
  rw [hmain]
  constructor
  · intro h
    obtain ⟨v, hv⟩ := Option.isSome_iff_exists.mp h
    exact ⟨v, List.mem_of_find?_eq_some hv, List.find?_some hv⟩
  · rintro ⟨v, hvmem, hvp⟩
    rcases hex : validIds.find? (fun v => includesL (digitsOnly text) v) with _ | w
    · exact absurd hvp (List.find?_eq_none.mp hex v hvmem)
    · rfl

/-- Witness for `findValidStudentId_eq_plain_search` at the registry identifier
`2201547` and the noisy OCR text `ID: 2201547 CARD`. -/
theorem findValidStudentId_eq_plain_search_witness :
    (∀ v ∈ ["2201547".toList], v.length = 7) ∧
    (findValidStudentId ["2201547".toList] ("ID: 2201547 CARD".toList) =
      ["2201547".toList].find?
        (fun v => includesL (digitsOnly ("ID: 2201547 CARD".toList)) v) ∧
    ((findValidStudentId ["2201547".toList]
        ("ID: 2201547 CARD".toList)).isSome = true ↔
      ∃ v ∈ ["2201547".toList],
        includesL (digitsOnly ("ID: 2201547 CARD".toList)) v = true)) :=
  ⟨by decide, findValidStudentId_eq_plain_search _ _ (by decide)⟩

/-! ## Descriptor comparators (`useFaceVerification.js` lines 119–132,
`faceSimilarity` lines 183–199 of the duplicated hook)

Descriptors are lists of real numbers (the 128-dimensional face descriptors).
`dotL` models the accumulator loop `dot += a[i] * b[i]` (both functions return
early unless the lengths agree, so the loop always runs over paired entries).
-/

/-- Model of `dot`, `normA`, `normB` accumulator of `cosineSimilarity`. -/
def dotL (a b : List ℝ) : ℝ := (List.zipWith (· * ·) a b).sum

/-- Model of `sum += diff * diff` accumulator of `faceSimilarity`. -/
def sumSqDiff (a b : List ℝ) : ℝ :=
  (List.zipWith (fun x y => (x - y) * (x - y)) a b).sum

/-- Model of `cosineSimilarity` from `useFaceVerification.js` (lines 119–132): 0 on a
length mismatch; 0 when the product of the Euclidean norms is 0; otherwise the
cosine of the angle rescaled from [-1,1] to [0,1] by `(cos + 1) / 2`. -/
noncomputable def cosineSimilarity (a b : List ℝ) : ℝ :=
  if a.length ≠ b.length then 0
  else
    let denom := Real.sqrt (dotL a a) * Real.sqrt (dotL b b)
    if denom = 0 then 0 else (dotL a b / denom + 1) / 2

/-- Model of `faceSimilarity` from the duplicated hook (lines 183–199): 0 on a length
mismatch; otherwise `max(0, 1 - euclideanDistance)`. -/
noncomputable def faceSimilarity (a b : List ℝ) : ℝ :=
  if a.length ≠ b.length then 0
  else max 0 (1 - Real.sqrt (sumSqDiff a b))

theorem dotL_comm (a b : List ℝ) : dotL a b = dotL b a := by
  unfold dotL
  rw [List.zipWith_comm_of_comm _ mul_comm]

theorem sumSqDiff_comm (a b : List ℝ) : sumSqDiff a b = sumSqDiff b a := by
  unfold sumSqDiff
  rw [List.zipWith_comm_of_comm _ (by intro x y; ring)]

theorem dotL_self_nonneg (a : List ℝ) : 0 ≤ dotL a a := by
  induction a with
  | nil => simp [dotL]
  | cons x xs ih =>
    have : dotL (x :: xs) (x :: xs) = x * x + dotL xs xs := by simp [dotL]
    rw [this]
    nlinarith [mul_self_nonneg x]

theorem dotL_self_pos {a : List ℝ} (h : ∃ x ∈ a, x ≠ 0) : 0 < dotL a a := by
  induction a with
  | nil => simp at h
  | cons x xs ih =>
    have hx : dotL (x :: xs) (x :: xs) = x * x + dotL xs xs := by simp [dotL]
    rw [hx]
    obtain ⟨y, hy, hy0⟩ := h
    rcases List.mem_cons.mp hy with rfl | hmem
    · nlinarith [mul_self_pos.mpr hy0, dotL_self_nonneg xs]
    · nlinarith [ih ⟨y, hmem, hy0⟩, mul_self_nonneg x]

theorem dotL_self_eq_zero {a : List ℝ} (h : ∀ x ∈ a, x = 0) : dotL a a = 0 := by
  induction a with
  | nil => simp [dotL]
  | cons x xs ih =>
    have hx : dotL (x :: xs) (x :: xs) = x * x + dotL xs xs := by simp [dotL]
    rw [hx, h x (by simp), ih (fun y hy => h y (by simp [hy]))]
    ring

theorem dotL_eq_sum :
    ∀ (a b : List ℝ), a.length = b.length →
      dotL a b = ∑ i ∈ Finset.range a.length, a.getD i 0 * b.getD i 0 := by
  intro a
  induction a with
  | nil => intro b _; simp [dotL]
  | cons x xs ih =>
    intro b hb
    cases b with
    | nil => simp at hb
    | cons y ys =>
      have hlen : xs.length = ys.length := by simpa using hb
      have hcons : dotL (x :: xs) (y :: ys) = x * y + dotL xs ys := by
        simp [dotL]
      rw [hcons, List.length_cons, Finset.sum_range_succ']
      simp only [List.getD_cons_succ, List.getD_cons_zero]
      rw [ih ys hlen]
      ring

/-- Cauchy–Schwarz for the accumulator: `dot² ≤ normA * normB`. -/
theorem dotL_sq_le (a b : List ℝ) (h : a.length = b.length) :
    dotL a b ^ 2 ≤ dotL a a * dotL b b := by
  rw [dotL_eq_sum a b h, dotL_eq_sum a a rfl, dotL_eq_sum b b rfl, ← h]
  have := Finset.sum_mul_sq_le_sq_mul_sq (Finset.range a.length)
    (fun i => a.getD i 0) (fun i => b.getD i 0)
  calc (∑ i ∈ Finset.range a.length, a.getD i 0 * b.getD i 0) ^ 2
      ≤ (∑ i ∈ Finset.range a.length, a.getD i 0 ^ 2) *
        ∑ i ∈ Finset.range a.length, b.getD i 0 ^ 2 := this
    _ = (∑ i ∈ Finset.range a.length, a.getD i 0 * a.getD i 0) *
        ∑ i ∈ Finset.range a.length, b.getD i 0 * b.getD i 0 := by
        simp [sq]

theorem cosineSimilarity_bounds (a b : List ℝ) :
    0 ≤ cosineSimilarity a b ∧ cosineSimilarity a b ≤ 1 := by
  unfold cosineSimilarity
  by_cases hlen : a.length = b.length
  · simp only [hlen, ne_eq, not_true_eq_false, if_false]
    by_cases hd : Real.sqrt (dotL a a) * Real.sqrt (dotL b b) = 0
    · simp [hd]
    · simp only [hd, if_false]
      have hA := dotL_self_nonneg a
      have hB := dotL_self_nonneg b
      have hdpos : 0 < Real.sqrt (dotL a a) * Real.sqrt (dotL b b) :=
        lt_of_le_of_ne (mul_nonneg (Real.sqrt_nonneg _) (Real.sqrt_nonneg _))
          (Ne.symm hd)
      have hsq : (Real.sqrt (dotL a a) * Real.sqrt (dotL b b)) ^ 2 =
          dotL a a * dotL b b := by
        have h1 := Real.mul_self_sqrt hA
        have h2 := Real.mul_self_sqrt hB
        ring_nf
        nlinarith [h1, h2]
      have hcs := dotL_sq_le a b hlen
      have habs : |dotL a b| ≤ Real.sqrt (dotL a a) * Real.sqrt (dotL b b) := by
        rw [← Real.sqrt_sq_eq_abs]
        calc Real.sqrt (dotL a b ^ 2)
            ≤ Real.sqrt ((Real.sqrt (dotL a a) * Real.sqrt (dotL b b)) ^ 2) :=
              Real.sqrt_le_sqrt (by rw [hsq]; exact hcs)
          _ = Real.sqrt (dotL a a) * Real.sqrt (dotL b b) :=
              Real.sqrt_sq hdpos.le
      obtain ⟨hlo, hhi⟩ := abs_le.mp habs
      constructor
      · have : -1 ≤ dotL a b / (Real.sqrt (dotL a a) * Real.sqrt (dotL b b)) := by
          rw [le_div_iff hdpos]; linarith
        linarith
      · have : dotL a b / (Real.sqrt (dotL a a) * Real.sqrt (dotL b b)) ≤ 1 :=
          (div_le_one hdpos).mpr hhi
        linarith
  · simp [hlen]

theorem faceSimilarity_bounds (a b : List ℝ) :
    0 ≤ faceSimilarity a b ∧ faceSimilarity a b ≤ 1 := by
  unfold faceSimilarity
  by_cases hlen : a.length = b.length
  · simp only [hlen, ne_eq, not_true_eq_false, if_false]
    refine ⟨le_max_left _ _, max_le (by norm_num) ?_⟩
    have := Real.sqrt_nonneg (sumSqDiff a b)
    linarith
  · simp [hlen]

theorem cosineSimilarity_comm (a b : List ℝ) :
    cosineSimilarity a b = cosineSimilarity b a := by
  unfold cosineSimilarity
  rw [dotL_comm a b]
  by_cases hlen : a.length = b.length
  · simp only [hlen, ne_eq, not_true_eq_false, if_false]
    rw [mul_comm (Real.sqrt (dotL a a)) (Real.sqrt (dotL b b))]
  · have hlen' : b.length ≠ a.length := fun hh => hlen hh.symm
    simp [hlen, hlen']

theorem faceSimilarity_comm (a b : List ℝ) :
    faceSimilarity a b = faceSimilarity b a := by
  unfold faceSimilarity
  rw [sumSqDiff_comm a b]
  by_cases hlen : a.length = b.length
  · simp [hlen]
  · have hlen' : b.length ≠ a.length := fun hh => hlen hh.symm
    simp [hlen, hlen']

/-- Claim C6: for equal-length descriptor pairs both scoring policies are
symmetric and return a score in the closed interval [0,1]. -/
theorem comparator_symm_bounds (a b : List ℝ) (h : a.length = b.length) :
    cosineSimilarity a b = cosineSimilarity b a ∧
    0 ≤ cosineSimilarity a b ∧ cosineSimilarity a b ≤ 1 ∧
    faceSimilarity a b = faceSimilarity b a ∧
    0 ≤ faceSimilarity a b ∧ faceSimilarity a b ≤ 1 :=
  ⟨cosineSimilarity_comm a b, (cosineSimilarity_bounds a b).1,
    (cosineSimilarity_bounds a b).2, faceSimilarity_comm a b,
    (faceSimilarity_bounds a b).1, (faceSimilarity_bounds a b).2⟩

/-- Witness for `comparator_symm_bounds` at the descriptors `[1]` and `[0]`. -/
theorem comparator_symm_bounds_witness :
    ([(1 : ℝ)].length = [(0 : ℝ)].length) ∧
    (cosineSimilarity [(1 : ℝ)] [(0 : ℝ)] = cosineSimilarity [(0 : ℝ)] [(1 : ℝ)] ∧
    0 ≤ cosineSimilarity [(1 : ℝ)] [(0 : ℝ)] ∧
    cosineSimilarity [(1 : ℝ)] [(0 : ℝ)] ≤ 1 ∧
    faceSimilarity [(1 : ℝ)] [(0 : ℝ)] = faceSimilarity [(0 : ℝ)] [(1 : ℝ)] ∧
    0 ≤ faceSimilarity [(1 : ℝ)] [(0 : ℝ)] ∧
    faceSimilarity [(1 : ℝ)] [(0 : ℝ)] ≤ 1) :=
  ⟨rfl, comparator_symm_bounds [(1 : ℝ)] [(0 : ℝ)] rfl⟩

/-- Claim C7: the cosine-based comparator maps any pair `(a, a)` with `a` not
the zero vector to exactly 1. -/
theorem cosineSimilarity_self (a : List ℝ) (h : ∃ x ∈ a, x ≠ 0) :
    cosineSimilarity a a = 1 := by
  unfold cosineSimilarity
  simp only [ne_eq, not_true_eq_false, if_false]
  have hpos : 0 < dotL a a := dotL_self_pos h
  have hd : Real.sqrt (dotL a a) * Real.sqrt (dotL a a) = dotL a a :=
    Real.mul_self_sqrt hpos.le
  rw [hd, if_neg (ne_of_gt hpos), div_self (ne_of_gt hpos)]
  norm_num

/-- Witness for `cosineSimilarity_self` at the descriptor `[1]`. -/
theorem cosineSimilarity_self_witness :
    (∃ x ∈ [(1 : ℝ)], x ≠ 0) ∧ cosineSimilarity [(1 : ℝ)] [(1 : ℝ)] = 1 :=
  ⟨⟨1, by simp⟩, cosineSimilarity_self [(1 : ℝ)] ⟨1, by simp⟩⟩

/-- Claim C8: when either descriptor of an equal-length pair is the zero vector
the product of the norms is 0, the comparator takes the guarded
denominator-zero branch, and the result is 0 (no division is performed). -/
theorem cosineSimilarity_total_zero_denom (a b : List ℝ)
    (hlen : a.length = b.length)
    (hz : (∀ x ∈ a, x = 0) ∨ (∀ x ∈ b, x = 0)) :
    Real.sqrt (dotL a a) * Real.sqrt (dotL b b) = 0 ∧
    cosineSimilarity a b = 0 := by
  have hdenom : Real.sqrt (dotL a a) * Real.sqrt (dotL b b) = 0 := by
    rcases hz with hza | hzb
    · rw [dotL_self_eq_zero hza, Real.sqrt_zero, zero_mul]
    · rw [dotL_self_eq_zero hzb, Real.sqrt_zero, mul_zero]
  refine ⟨hdenom, ?_⟩
  unfold cosineSimilarity
  simp only [hlen, ne_eq, not_true_eq_false, if_false]
  rw [if_pos hdenom]

/-- Witness for `cosineSimilarity_total_zero_denom` at `a = [0]`, `b = [1]`. -/
theorem cosineSimilarity_total_zero_denom_witness :
    ([(0 : ℝ)].length = [(1 : ℝ)].length ∧ ∀ x ∈ [(0 : ℝ)], x = 0) ∧
    (Real.sqrt (dotL [(0 : ℝ)] [(0 : ℝ)]) *
        Real.sqrt (dotL [(1 : ℝ)] [(1 : ℝ)]) = 0 ∧
      cosineSimilarity [(0 : ℝ)] [(1 : ℝ)] = 0) :=
  ⟨⟨rfl, by simp⟩,
    cosineSimilarity_total_zero_denom [(0 : ℝ)] [(1 : ℝ)] rfl
      (Or.inl (by simp))⟩

/-! ## Face quality gate (`checkFaceQuality`, `useFaceVerification.js`
lines 134–150) -/

/-- Model of `detection.detection.box` : face bounding box. -/
structure FaceBox where
  x : ℝ
  y : ℝ
  width : ℝ
  height : ℝ

/-- One face-api detection: confidence score, bounding box, and the
128-dimensional descriptor. -/
structure FVDetection where
  score : ℝ
  box : FaceBox
  descriptor : List ℝ

/-- Model of `checkFaceQuality`: `videoPresent` models `videoRef.current` being
non-null, `videoWidth` models `videoRef.current.videoWidth`.  The checks are,
in order: detection confidence, horizontal centering within 35% of the frame
width, and box width within 15%–85% of the frame width. -/
noncomputable def checkFaceQuality (videoPresent : Bool) (videoWidth : ℝ)
    (det : FVDetection) : Bool :=
  if videoPresent = false then false
  else if det.score < 0.5 then false
  else if |det.box.x + det.box.width / 2 - videoWidth / 2| >
      videoWidth * 0.35 then false
  else if det.box.width < videoWidth * 0.15 ∨
      det.box.width > videoWidth * 0.85 then false
  else true

/-- Claim C5: with a video element present, the quality gate passes iff the
confidence is at least 0.5, the horizontal center offset is at most 0.35 of
the frame width, and the box width lies between 0.15 and 0.85 of the frame
width; so a detection whose center offset exceeds the tolerance is rejected
whatever its confidence. -/
theorem checkFaceQuality_iff (det : FVDetection) (videoWidth : ℝ) :
    checkFaceQuality true videoWidth det = true ↔
      (0.5 ≤ det.score ∧
       |det.box.x + det.box.width / 2 - videoWidth / 2| ≤ videoWidth * 0.35 ∧
       videoWidth * 0.15 ≤ det.box.width ∧
       det.box.width ≤ videoWidth * 0.85) := by
  unfold checkFaceQuality
  rw [if_neg (by simp : ¬ ((true : Bool) = false))]
  split_ifs with h1 h2 h3
  · refine iff_of_false (by simp) ?_
    rintro ⟨hs, -, -, -⟩
    exact absurd h1 (not_lt.mpr hs)
  · refine iff_of_false (by simp) ?_
    rintro ⟨-, hoff, -, -⟩
    exact absurd h2 (not_lt.mpr hoff)
  · refine iff_of_false (by simp) ?_
    rintro ⟨-, -, hmin, hmax⟩
    rcases h3 with hlt | hgt
    · exact absurd hlt (not_lt.mpr hmin)
    · exact absurd hgt (not_lt.mpr hmax)
  · push_neg at h3
    exact iff_of_true rfl ⟨not_lt.mp h1, not_lt.mp h2, h3.1, h3.2⟩

/-! ## Face verification loop (`startFaceDetection`)

The periodic detection callback of `startFaceDetection` (lines 152–228 of
`useFaceVerification.js`; lines 239–330 of the duplicated hook, which differs
only in its constants and in calling `faceSimilarity` instead of
`cosineSimilarity`).  One invocation of the `setInterval` callback is one
`tickFV`.  `intervalActive` models the interval being registered
(`clearInterval` sets it to `false`; a tick on a cancelled interval does not
run, i.e. leaves the state unchanged).  `verifiedCalls` records the arguments
`{similarity, confidence}` of every `onVerified` invocation. -/

/-- The two scoring policies used by the two front-ends. -/
inductive ScoringPolicy
  | cosine
  | distance

/-- Dispatch to the comparator the respective hook calls. -/
noncomputable def policyScore : ScoringPolicy → List ℝ → List ℝ → ℝ
  | .cosine => cosineSimilarity
  | .distance => faceSimilarity

/-- The status messages `setStatus` can produce inside the detection loop. -/
inductive FVStatus
  | lookingForFace
  | pleaseLookAtCamera
  | verifyingFace
  | noMatch (similarity : ℝ)
  | positionFaceInCenter
  | multipleFaces

/-- Per-hook configuration: `MATCH_THRESHOLD`, `MATCHING_THROTTLE`, the
comparator used, and the cached reference descriptor. -/
structure FVConfig where
  matchThreshold : ℝ
  matchingThrottle : ℝ
  policy : ScoringPolicy
  referenceDescriptor : List ℝ

/-- The mutable state of the face verification loop: `hasVerifiedRef`,
the registered interval, `lastDetectionTimeRef`, `faceDetected`,
`isVerifying`, `status`, `similarityScore`, and the `onVerified` call log. -/
structure FVState where
  hasVerified : Bool
  intervalActive : Bool
  lastDetectionTime : ℝ
  faceDetected : Bool
  isVerifying : Bool
  status : FVStatus
  similarityScore : Option ℝ
  verifiedCalls : List (ℝ × ℝ)

/-- One tick's environment: whether `videoRef.current` is non-null,
`Date.now()`, the video width, and the faces detected in the frame. -/
structure FVInput where
  videoPresent : Bool
  now : ℝ
  videoWidth : ℝ
  detections : List FVDetection

/-- The state set up by `startFaceDetection` before registering the interval:
`hasVerifiedRef.current = false`, status `Looking for face...`, interval
registered; `t0` is the initial `lastDetectionTimeRef` value. -/
def initFVState (t0 : ℝ) : FVState :=
  { hasVerified := false
    intervalActive := true
    lastDetectionTime := t0
    faceDetected := false
    isVerifying := false
    status := .lookingForFace
    similarityScore := none
    verifiedCalls := [] }

/-- One invocation of the detection-interval callback. -/
noncomputable def tickFV (cfg : FVConfig) (s : FVState) (inp : FVInput) :
    FVState :=
  if s.intervalActive = false then s
  else if inp.videoPresent = false ∨ s.hasVerified = true then s
  else
    match inp.detections with
    | [] =>
      { s with faceDetected := false, status := .pleaseLookAtCamera,
               similarityScore := none }
    | [det] =>
      if checkFaceQuality inp.videoPresent inp.videoWidth det = true ∧
          cfg.matchingThrottle ≤ inp.now - s.lastDetectionTime then
        if cfg.matchThreshold ≤
            policyScore cfg.policy det.descriptor cfg.referenceDescriptor ∧
            s.hasVerified = false then
          { s with faceDetected := true,
                   lastDetectionTime := inp.now,
                   isVerifying := false,
                   status := .verifyingFace,
                   similarityScore := some (policyScore cfg.policy
                     det.descriptor cfg.referenceDescriptor),
                   hasVerified := true,
                   intervalActive := false,
                   verifiedCalls :=
                     (policyScore cfg.policy det.descriptor
                        cfg.referenceDescriptor, det.score) ::
                       s.verifiedCalls }
        else if policyScore cfg.policy det.descriptor
            cfg.referenceDescriptor < cfg.matchThreshold then
          { s with faceDetected := true,
                   lastDetectionTime := inp.now,
                   isVerifying := false,
                   status := .noMatch (policyScore cfg.policy det.descriptor
                     cfg.referenceDescriptor),
                   similarityScore := some (policyScore cfg.policy
                     det.descriptor cfg.referenceDescriptor) }
        else
          { s with faceDetected := true,
                   lastDetectionTime := inp.now,
                   isVerifying := false,
                   status := .verifyingFace,
                   similarityScore := some (policyScore cfg.policy
                     det.descriptor cfg.referenceDescriptor) }
      else
        { s with faceDetected := true, status := .positionFaceInCenter }
    | _ :: _ :: _ =>
      { s with faceDetected := false, status := .multipleFaces }

/-- A tick on an already-verified session is a no-op: the
`hasVerifiedRef.current` guard returns before anything is touched. -/
theorem tickFV_of_verified (cfg : FVConfig) (s : FVState) (inp : FVInput)
    (h : s.hasVerified = true) : tickFV cfg s inp = s := by
  unfold tickFV
  split
  · rfl
  · rw [if_pos (Or.inr h)]

/-- The success invariant of the loop: either no success yet and no
`onVerified` call has been made, or the session is verified, exactly one
`onVerified` call was made, and the interval has been cancelled. -/
def fvInv (s : FVState) : Prop :=
  (s.hasVerified = false ∧ s.verifiedCalls = []) ∨
  (s.hasVerified = true ∧ s.verifiedCalls.length = 1 ∧
    s.intervalActive = false)

theorem fvInv_init (t0 : ℝ) : fvInv (initFVState t0) :=
  Or.inl ⟨rfl, rfl⟩

theorem fvInv_tick (cfg : FVConfig) (s : FVState) (inp : FVInput)
    (h : fvInv s) : fvInv (tickFV cfg s inp) := by
  rcases h with ⟨hv, hc⟩ | ⟨hv, hc, hi⟩
  · unfold tickFV
    split
    · exact Or.inl ⟨hv, hc⟩
    · split
      · exact Or.inl ⟨hv, hc⟩
      · split
        · exact Or.inl ⟨hv, hc⟩
        · split
          · split
            · exact Or.inr ⟨rfl, by simp [hc], rfl⟩
            · split
              · exact Or.inl ⟨hv, hc⟩
              · exact Or.inl ⟨hv, hc⟩
          · exact Or.inl ⟨hv, hc⟩
        · exact Or.inl ⟨hv, hc⟩
  · rw [tickFV_of_verified cfg s inp hv]
    exact Or.inr ⟨hv, hc, hi⟩

theorem fvInv_run (cfg : FVConfig) (inputs : List FVInput) :
    ∀ s, fvInv s → fvInv (inputs.foldl (tickFV cfg) s) := by
  induction inputs with
  | nil => intro s hs; simpa using hs
  | cons i is ih => intro s hs; exact ih _ (fvInv_tick cfg s i hs)

/-- Claim C3: the success transition is idempotent.  A tick on a session whose
`hasVerified` flag is set changes nothing (so the recorded verification data
cannot be mutated), and along every run of the loop from its start state the
`onVerified` callback is invoked at most once — exactly once when and only
when the verified flag is set, at which point the interval has also been
cancelled. -/
theorem fv_success_called_once (cfg : FVConfig) :
    (∀ (s : FVState) (inp : FVInput),
      s.hasVerified = true → tickFV cfg s inp = s) ∧
    (∀ (t0 : ℝ) (inputs : List FVInput),
      (inputs.foldl (tickFV cfg) (initFVState t0)).verifiedCalls.length ≤ 1 ∧
      ((inputs.foldl (tickFV cfg) (initFVState t0)).hasVerified = true ↔
        (inputs.foldl (tickFV cfg) (initFVState t0)).verifiedCalls.length
          = 1) ∧
      ((inputs.foldl (tickFV cfg) (initFVState t0)).hasVerified = true →
        (inputs.foldl (tickFV cfg) (initFVState t0)).intervalActive
          = false)) := by
  refine ⟨tickFV_of_verified cfg, ?_⟩
  intro t0 inputs
  rcases fvInv_run cfg inputs (initFVState t0) (fvInv_init t0) with
    ⟨hv, hc⟩ | ⟨hv, hc, hi⟩
  · refine ⟨by simp [hc], ?_, ?_⟩
    · rw [hv, hc]
      simp
    · intro hcontra
      rw [hv] at hcontra
      cases hcontra
  · exact ⟨le_of_eq hc, by simp [hv, hc], fun _ => hi⟩

/-- Witness for `fv_success_called_once`: a tick on an already-verified
state is the identity. -/
theorem fv_success_called_once_witness :
    tickFV ⟨(1 : ℝ) / 2, 4000, ScoringPolicy.cosine, [(1 : ℝ)]⟩
        ⟨true, true, 0, false, false, FVStatus.lookingForFace, none, []⟩
        ⟨true, 0, 640, []⟩ =
      ⟨true, true, 0, false, false, FVStatus.lookingForFace, none, []⟩ :=
  (fv_success_called_once
    ⟨(1 : ℝ) / 2, 4000, ScoringPolicy.cosine, [(1 : ℝ)]⟩).1 _ _ rfl

/-! ## Student registry (`studentDatabase.js` / `services/testDB.js`) -/

/-- One student record of the `STUDENTS` object. -/
structure Student where
  id : String
  name : String
  department : String
  year : String
  faceImage : String
  email : String
deriving DecidableEq

def johnPaul : Student :=
  ⟨"2201521", "John Paul", "Computer Science", "Junior",
    "/uploads/mememe.jpg", "john.doe@university.edu"⟩

def janeSmith : Student :=
  ⟨"2201547", "Jane Smith", "Engineering", "Senior",
    "/uploads/jungkok.jpg", "jane.smith@university.edu"⟩

/-- The `STUDENTS` object, keys in insertion order. -/
def STUDENTS : List (String × Student) :=
  [("2201521", johnPaul), ("2201547", janeSmith)]

/-- Model of `getStudentByID`: key lookup in `STUDENTS`, `null` when absent. -/
def getStudentByID (studentId : String) : Option Student :=
  (STUDENTS.find? (fun p => p.1 == studentId)).map Prod.snd

/-- Model of `getAllValidStudentIDs`: `Object.keys(STUDENTS)`. -/
def getAllValidStudentIDs : List String := STUDENTS.map Prod.fst

/-! ## Verification flow controller (`useVerificationFlow.js`)

The controller's four operations are modelled as a step function over an
explicit state; the registry lookup is passed in as `db` (the source reads the
module-level `testDB`, instantiated below as `getStudentByID`). -/

/-- Model of `VERIFICATION_STATES`. -/
inductive VerificationStep
  | scanning_id
  | verifying_face
  | success
  | failed_id
  | failed_face
  | failed_mismatch
deriving DecidableEq, BEq

/-- The `verificationResult` recorded by `handleFaceVerified`:
`{...result, timestamp, studentId}`. -/
structure VerificationResult where
  similarity : ℝ
  confidence : ℝ
  timestamp : String
  studentId : Option String

/-- The hook state: `currentStep`, `studentId`, `studentData`,
`verificationResult`. -/
structure FlowState where
  currentStep : VerificationStep
  studentId : Option String
  studentData : Option Student
  verificationResult : Option VerificationResult

/-- Initial hook state. -/
def initFlowState : FlowState :=
  ⟨.scanning_id, none, none, none⟩

/-- Model of `handleIDDetected`: look the detected identifier up; on a miss, go to
`failed_id` recording the identifier; on a hit, bind identifier and record
and go to `verifying_face`. -/
def handleIDDetected (db : String → Option Student) (s : FlowState)
    (detectedId : String) : FlowState :=
  match db detectedId with
  | none =>
    { s with currentStep := .failed_id, studentId := some detectedId }
  | some student =>
    { s with studentId := some detectedId, studentData := some student,
             currentStep := .verifying_face }

/-- Model of `handleFaceVerified`: record the result (with timestamp and the current
`studentId`) and go to `success`. -/
def handleFaceVerified (s : FlowState) (similarity confidence : ℝ)
    (timestamp : String) : FlowState :=
  { s with
    verificationResult :=
      some ⟨similarity, confidence, timestamp, s.studentId⟩,
    currentStep := .success }

/-- Model of `handleFaceFailed`: go to `failed_face` (the reason is only logged). -/
def handleFaceFailed (s : FlowState) (reason : String) : FlowState :=
  { s with currentStep := .failed_face }

/-- Model of `reset`: back to `scanning_id` with all session fields cleared. -/
def reset (s : FlowState) : FlowState := initFlowState

/-- The controller's operations, as invocable by its callers. -/
inductive FlowOp
  | idDetected (detectedId : String)
  | faceVerified (similarity confidence : ℝ) (timestamp : String)
  | faceFailed (reason : String)
  | reset

def applyFlowOp (db : String → Option Student) (s : FlowState) :
    FlowOp → FlowState
  | .idDetected detectedId => handleIDDetected db s detectedId
  | .faceVerified similarity confidence timestamp =>
    handleFaceVerified s similarity confidence timestamp
  | .faceFailed reason => handleFaceFailed s reason
  | .reset => reset s

/-- The state reached from the initial state by a sequence of operations. -/
def runFlow (db : String → Option Student) (ops : List FlowOp) : FlowState :=
  ops.foldl (applyFlowOp db) initFlowState

/-- Claim C4 counterexample: a successful `handleIDDetected` (`2201547`, Jane
Smith) followed by a failed one (`1111111`, absent from the registry) leaves
`studentData = some janeSmith` while `studentId` is `some ("1111111")` — an
identifier whose lookup is `none`, so the held record was not produced by the
held identifier. -/
theorem flow_matched_record_counterexample :
    (runFlow getStudentByID
      [FlowOp.idDetected ("2201547"), FlowOp.idDetected ("1111111")]).studentData
        = some janeSmith ∧
    (runFlow getStudentByID
      [FlowOp.idDetected ("2201547"), FlowOp.idDetected ("1111111")]).studentId
        = some ("1111111") ∧
    getStudentByID ("1111111") = none := by
  refine ⟨by decide, by decide, by decide⟩

/-- The part of the session invariant that does survive arbitrary operation
sequences: a non-null matched record implies a non-null identifier. -/
def flowDataInv (s : FlowState) : Prop :=
  s.studentData.isSome = true → s.studentId.isSome = true

theorem flowDataInv_apply (db : String → Option Student) (s : FlowState)
    (op : FlowOp) (h : flowDataInv s) : flowDataInv (applyFlowOp db s op) := by
  cases op with
  | idDetected detectedId =>
    intro _
    simp only [applyFlowOp, handleIDDetected]
    cases db detectedId <;> rfl
  | faceVerified similarity confidence timestamp => exact h
  | faceFailed reason => exact h
  | reset => intro hc; simpa [applyFlowOp, reset, initFlowState] using hc

theorem flowDataInv_run (db : String → Option Student) (ops : List FlowOp) :
    flowDataInv (runFlow db ops) := by
  unfold runFlow
  have hstep : ∀ s, flowDataInv s →
      flowDataInv (ops.foldl (applyFlowOp db) s) := by
    induction ops with
    | nil => intro s hs; simpa using hs
    | cons o os ih => intro s hs; exact ih _ (flowDataInv_apply db s o hs)
  refine hstep initFlowState ?_
  intro hc
  simpa [initFlowState] using hc

/-- Claim C4 (amended): in every state reachable from the initial state by any
sequence of controller operations, a non-null matched `studentData` implies a
non-null acquired `studentId`.  (The stronger parenthetical — that the held
identifier is the one whose lookup produced the record — fails; see the
counterexample.) -/
theorem flow_matched_record_has_id (db : String → Option Student)
    (ops : List FlowOp)
    (h : (runFlow db ops).studentData.isSome = true) :
    (runFlow db ops).studentId.isSome = true :=
  flowDataInv_run db ops h

/-- Witness for `flow_matched_record_has_id` after one successful
identification. -/
theorem flow_matched_record_has_id_witness :
    ((runFlow getStudentByID
        [FlowOp.idDetected ("2201547")]).studentData.isSome = true) ∧
    ((runFlow getStudentByID
        [FlowOp.idDetected ("2201547")]).studentId.isSome = true) :=
  ⟨by decide, flow_matched_record_has_id getStudentByID _ (by decide)⟩

/-- Claim C9: the declared state `failed_mismatch` is unreachable: no sequence
of controller operations from the initial state produces it. -/
theorem failed_mismatch_unreachable (db : String → Option Student)
    (ops : List FlowOp) :
    ((runFlow db ops).currentStep == VerificationStep.failed_mismatch)
      = false := by
  unfold runFlow
  have hstep : ∀ s, (s.currentStep == VerificationStep.failed_mismatch)
        = false →
      ((ops.foldl (applyFlowOp db) s).currentStep ==
        VerificationStep.failed_mismatch) = false := by
    induction ops with
    | nil => intro s hs; simpa using hs
    | cons o os ih =>
      intro s hs
      refine ih _ ?_
      cases o with
      | idDetected detectedId =>
        simp only [applyFlowOp, handleIDDetected]
        cases db detectedId <;> rfl
      | faceVerified similarity confidence timestamp => rfl
      | faceFailed reason => rfl
      | reset => rfl
  exact hstep initFlowState rfl

/-! ## ID acquisition loop (`useIDScannerLogic.js`, `scanFrame`)

One `scanFrame` invocation is one tick; `rawText` is the OCR output for the
captured frame.  `scanning` models the scan interval being registered
(`stopScanning` clears it).  The scanner's only upward channel is
`onIDDetected`, which the app wires to the controller's `handleIDDetected`;
the composed system state pairs the scanner state with the controller state.
`validIds` injects the module-level `getAllValidStudentIDs()` read by
`findValidStudentId`. -/

/-- Model of `MAX_ATTEMPTS` (the attempt budget). -/
def MAX_ATTEMPTS : Nat := 60

/-- Scanner-local state: `scanCountRef`, the registered interval, `status`,
`error`. -/
structure ScannerState where
  scanCount : Nat
  scanning : Bool
  status : String
  error : Option String

/-- Scanner plus controller. -/
structure SystemState where
  scanner : ScannerState
  flow : FlowState

/-- State after `startScanning`: counter zeroed, interval registered. -/
def initScannerState : ScannerState :=
  ⟨0, true, "Scanning for student ID...", none⟩

def initSystemState : SystemState :=
  ⟨initScannerState, initFlowState⟩

/-- The scanner state `scanFrame` leaves behind on budget exhaustion. -/
def timeoutScannerState : ScannerState :=
  ⟨MAX_ATTEMPTS, false, "Scan timeout",
    some ("Could not detect student ID. Please try again.")⟩

/-- One `scanFrame` tick: reconcile the OCR text; on success stop scanning
and report the identifier to the controller; otherwise bump the counter and,
at the attempt budget, stop scanning and set the local timeout error and
status. -/
def scanFrame (db : String → Option Student) (validIds : List (List Char))
    (sys : SystemState) (rawText : List Char) : SystemState :=
  if sys.scanner.scanning = false then sys
  else
    match findValidStudentId validIds rawText with
    | some studentId =>
      ⟨⟨sys.scanner.scanCount, false, "ID detected!", sys.scanner.error⟩,
        handleIDDetected db sys.flow (String.mk studentId)⟩
    | none =>
      if sys.scanner.scanCount + 1 ≥ MAX_ATTEMPTS then
        ⟨timeoutScannerState, sys.flow⟩
      else
        ⟨⟨sys.scanner.scanCount + 1, true,
          "Scanning... (" ++ toString (sys.scanner.scanCount + 1) ++ "/"
            ++ toString MAX_ATTEMPTS ++ ")", sys.scanner.error⟩,
          sys.flow⟩

/-- Run the scan loop from a fresh system on a list of per-tick OCR texts. -/
def runScan (db : String → Option Student) (validIds : List (List Char))
    (texts : List (List Char)) : SystemState :=
  texts.foldl (scanFrame db validIds) initSystemState

/-- Exhausting the budget on no-match frames produces the timeout scanner
state and leaves the controller untouched. -/
theorem scanFrame_nomatch_run (db : String → Option Student)
    (validIds : List (List Char)) :
    ∀ (texts : List (List Char)) (sys : SystemState),
      (∀ t ∈ texts, findValidStudentId validIds t = none) →
      sys.scanner.scanning = true →
      sys.scanner.scanCount + texts.length = MAX_ATTEMPTS →
      texts ≠ [] →
      texts.foldl (scanFrame db validIds) sys =
        ⟨timeoutScannerState, sys.flow⟩ := by
  intro texts
  induction texts with
  | nil => intro sys _ _ _ hne; exact absurd rfl hne
  | cons t ts ih =>
    intro sys hfail hscan hcount _
    obtain ⟨⟨c, sc, st, er⟩, fl⟩ := sys
    simp only at hscan hcount
    subst hscan
    have hft : findValidStudentId validIds t = none := hfail t (by simp)
    have hstep0 :
        scanFrame db validIds ⟨⟨c, true, st, er⟩, fl⟩ t =
          if c + 1 ≥ MAX_ATTEMPTS then
            ⟨timeoutScannerState, fl⟩
          else
            ⟨⟨c + 1, true, "Scanning... (" ++ toString (c + 1) ++ "/"
              ++ toString MAX_ATTEMPTS ++ ")", er⟩, fl⟩ := by
      unfold scanFrame
      rw [if_neg (by simp), hft]
    cases ts with
    | nil =>
      have hc : c + 1 = MAX_ATTEMPTS := by simpa using hcount
      simp only [List.foldl]
      rw [hstep0, if_pos (le_of_eq hc.symm)]
    | cons u us =>
      have hlt : ¬ c + 1 ≥ MAX_ATTEMPTS := by
        have h60 : MAX_ATTEMPTS = 60 := rfl
        simp only [List.length_cons] at hcount
        omega
      rw [show (t :: u :: us).foldl (scanFrame db validIds)
            ⟨⟨c, true, st, er⟩, fl⟩ =
          (u :: us).foldl (scanFrame db validIds)
            (scanFrame db validIds ⟨⟨c, true, st, er⟩, fl⟩ t) from rfl,
        hstep0, if_neg hlt]
      refine ih _ (fun v hv => hfail v (by simp [hv])) rfl ?_ (by simp)
      simp only [List.length_cons] at hcount ⊢
      omega

/-- Claim C2 counterexample: running the full 60-tick budget on frames whose
OCR text reconciles to nothing stops the scanner with the local timeout
error and status, while the verification flow controller is bit-for-bit the
initial state — still `scanning_id`; no timeout transition was propagated to
the controller. -/
theorem scan_timeout_counterexample :
    (runScan getStudentByID (getAllValidStudentIDs.map String.toList)
      (List.replicate 60 [])).scanner.scanning = false ∧
    (runScan getStudentByID (getAllValidStudentIDs.map String.toList)
      (List.replicate 60 [])).scanner.status = "Scan timeout" ∧
    (runScan getStudentByID (getAllValidStudentIDs.map String.toList)
      (List.replicate 60 [])).scanner.error
        = some ("Could not detect student ID. Please try again.") ∧
    (runScan getStudentByID (getAllValidStudentIDs.map String.toList)
      (List.replicate 60 [])).flow = initFlowState ∧
    (runScan getStudentByID (getAllValidStudentIDs.map String.toList)
      (List.replicate 60 [])).flow.currentStep
        = VerificationStep.scanning_id := by
  have hrun :
      runScan getStudentByID (getAllValidStudentIDs.map String.toList)
        (List.replicate 60 []) = ⟨timeoutScannerState, initFlowState⟩ := by
    refine scanFrame_nomatch_run getStudentByID _ _ initSystemState ?_ rfl
      (by decide) (by decide)
    intro t ht
    rw [List.eq_of_mem_replicate ht]
    decide
  rw [hrun]
  exact ⟨rfl, rfl, rfl, rfl, rfl⟩

/-- Claim C2 (amended): when the ID acquisition loop reaches its 60-attempt
budget without a successful reconciliation it stops the loop and reports a
timeout failure locally (status "Scan timeout", the timeout error message),
but this failure is not surfaced to the verification flow controller: the
controller state is exactly the state it started in (`scanning_id`); the
controller's `failed_id` state arises only from an identifier that was
recognized but absent from the registry. -/
theorem scan_timeout_local_only (db : String → Option Student)
    (validIds : List (List Char)) (texts : List (List Char))
    (hn : texts.length = MAX_ATTEMPTS)
    (hfail : ∀ t ∈ texts, findValidStudentId validIds t = none) :
    (runScan db validIds texts).scanner.scanning = false ∧
    (runScan db validIds texts).scanner.status = "Scan timeout" ∧
    (runScan db validIds texts).scanner.error
      = some ("Could not detect student ID. Please try again.") ∧
    (runScan db validIds texts).flow = initFlowState := by
  have hne : texts ≠ [] := by
    intro hnil
    rw [hnil] at hn
    simp [MAX_ATTEMPTS] at hn
  have hrun := scanFrame_nomatch_run db validIds texts initSystemState hfail
    rfl (by simpa [initSystemState, initScannerState] using hn) hne
  unfold runScan
  rw [hrun]
  exact ⟨rfl, rfl, rfl, rfl⟩

/-- Witness for `scan_timeout_local_only` on 60 frames of empty OCR text
against the real registry. -/
theorem scan_timeout_local_only_witness :
    ((List.replicate 60 ([] : List Char)).length = MAX_ATTEMPTS ∧
      ∀ t ∈ List.replicate 60 ([] : List Char),
        findValidStudentId (getAllValidStudentIDs.map String.toList) t
          = none) ∧
    ((runScan getStudentByID (getAllValidStudentIDs.map String.toList)
        (List.replicate 60 [])).scanner.scanning = false ∧
      (runScan getStudentByID (getAllValidStudentIDs.map String.toList)
        (List.replicate 60 [])).scanner.status = "Scan timeout" ∧
      (runScan getStudentByID (getAllValidStudentIDs.map String.toList)
        (List.replicate 60 [])).scanner.error
          = some ("Could not detect student ID. Please try again.") ∧
      (runScan getStudentByID (getAllValidStudentIDs.map String.toList)
        (List.replicate 60 [])).flow = initFlowState) := by
  have hfail : ∀ t ∈ List.replicate 60 ([] : List Char),
      findValidStudentId (getAllValidStudentIDs.map String.toList) t
        = none := by
    intro t ht
    rw [List.eq_of_mem_replicate ht]
    decide
  exact ⟨⟨by decide, hfail⟩,
    scan_timeout_local_only getStudentByID _ _ (by decide) hfail⟩

end FaceID
